import Mathlib

/-!
Verification development for the startup-funding scraping pipeline
(`backend/server.py`).  The Python source is shallowly embedded: pure
logic is translated into executable Lean functions; network, database,
HTML-parsing and LLM collaborators are modelled as explicit parameters
(outcome values or outcome functions), matching the boundaries the spec
assigns to them.  Machine-level details that the claims do not touch
(uuid generation, wall-clock datetimes) are abstracted to `Nat`
timestamps supplied by the caller.
-/

namespace Scrapper

/-- JSON values, as produced by the `json` module on provider responses.
Numbers are modelled as integers (the claims only exercise booleans,
strings, arrays and objects; no claim depends on float payloads). -/
inductive Json where
  | null : Json
  | bool (b : Bool) : Json
  | num (n : Int) : Json
  | str (s : String) : Json
  | arr (elems : List Json) : Json
  | obj (fields : List (String × Json)) : Json

/-- Python truthiness of a JSON value (`if value:`): `None`, `False`,
`0`, the empty string, the empty list and the empty dict are falsy. -/
def jsonTruthy : Json → Bool
  | Json.null => false
  | Json.bool b => b
  | Json.num n => n != 0
  | Json.str s => s ≠ ""
  | Json.arr es => !es.isEmpty
  | Json.obj fs => !fs.isEmpty

/-- `dict.get(k)` on a parsed JSON object: `none` when the key is absent
(or the value is not a dict, in which case Python would raise; lookups in
the embedding are only performed on objects). -/
def jsonGet : Json → String → Option Json
  | Json.obj fs, k => (fs.find? (fun kv => kv.1 = k)).map (fun kv => kv.2)
  | _, _ => none

/-- `dict[k] = v` on a JSON object: replace the first binding of `k`, or
append one.  Returns `none` when the value is not a dict, matching the
`TypeError` Python raises on item assignment to a non-dict. -/
def setAssoc : List (String × Json) → String → Json → List (String × Json)
  | [], k, v => [(k, v)]
  | (k', v') :: t, k, v =>
    if k' = k then (k, v) :: t else (k', v') :: setAssoc t k v

def jsonSetKey (j : Json) (k : String) (v : Json) : Option Json :=
  match j with
  | Json.obj fs => some (Json.obj (setAssoc fs k v))
  | _ => none

/-! ### A strict JSON parser (model of `json.loads`)

Fuel-based recursive descent over the character list.  The modelled
fragment covers null / booleans / integers / strings with the common
single-character escapes / arrays / objects, which is the shape the
classification prompt demands and the only shape the claims exercise.
`json.loads` accepts surrounding whitespace and requires the whole
input to be consumed, which the model reproduces. -/

def isWsChar (c : Char) : Bool :=
  c = ' ' || c = '\n' || c = '\t' || c = '\r'

def skipWs : List Char → List Char
  | [] => []
  | c :: t => if isWsChar c then skipWs t else c :: t

/-- Python `str.strip()` with no argument (ASCII-whitespace model). -/
def pyStrip (s : String) : String :=
  String.mk (((s.data.dropWhile isWsChar).reverse.dropWhile isWsChar).reverse)

/-- Parse the body of a string literal (opening quote already consumed),
returning the decoded characters and the remaining input. -/
def parseStrBody : Nat → List Char → Option (List Char × List Char)
  | 0, _ => none
  | _, [] => none
  | fuel + 1, c :: t =>
    if c = '"' then some ([], t)
    else if c = '\\' then
      match t with
      | [] => none
      | e :: t' =>
        let dec : Option Char :=
          if e = '"' then some '"'
          else if e = '\\' then some '\\'
          else if e = '/' then some '/'
          else if e = 'n' then some '\n'
          else if e = 't' then some '\t'
          else if e = 'r' then some '\r'
          else none
        match dec with
        | some d =>
          match parseStrBody fuel t' with
          | some (cs, rest) => some (d :: cs, rest)
          | none => none
        | none => none
    else
      match parseStrBody fuel t with
      | some (cs, rest) => some (c :: cs, rest)
      | none => none

/-- Split a leading run of decimal digits off the input. -/
def takeDigits : List Char → List Char × List Char
  | [] => ([], [])
  | c :: t =>
    if c.isDigit then
      let (ds, r) := takeDigits t
      (c :: ds, r)
    else ([], c :: t)

def digitsVal (acc : Nat) : List Char → Nat
  | [] => acc
  | c :: t => digitsVal (acc * 10 + (c.toNat - 48)) t

mutual

def parseVal : Nat → List Char → Option (Json × List Char)
  | 0, _ => none
  | fuel + 1, l =>
    match skipWs l with
    | 'n' :: 'u' :: 'l' :: 'l' :: rest => some (Json.null, rest)
    | 't' :: 'r' :: 'u' :: 'e' :: rest => some (Json.bool true, rest)
    | 'f' :: 'a' :: 'l' :: 's' :: 'e' :: rest => some (Json.bool false, rest)
    | '"' :: rest =>
      match parseStrBody fuel rest with
      | some (cs, r) => some (Json.str (String.mk cs), r)
      | none => none
    | '-' :: rest =>
      match takeDigits rest with
      | ([], _) => none
      | (ds, r) => some (Json.num (-(digitsVal 0 ds : Nat) : Int), r)
    | '[' :: rest =>
      match skipWs rest with
      | ']' :: r => some (Json.arr [], r)
      | l' => match parseElems fuel l' with
        | some (es, r) => some (Json.arr es, r)
        | none => none
    | '{' :: rest =>
      match skipWs rest with
      | '}' :: r => some (Json.obj [], r)
      | l' => match parseMembers fuel l' with
        | some (fs, r) => some (Json.obj fs, r)
        | none => none
    | c :: rest =>
      if c.isDigit then
        match takeDigits (c :: rest) with
        | ([], _) => none
        | (ds, r) => some (Json.num (digitsVal 0 ds : Nat), r)
      else none
    | [] => none

def parseElems : Nat → List Char → Option (List Json × List Char)
  | 0, _ => none
  | fuel + 1, l =>
    match parseVal fuel l with
    | some (j, r) =>
      match skipWs r with
      | ',' :: r' =>
        match parseElems fuel r' with
        | some (es, r'') => some (j :: es, r'')
        | none => none
      | ']' :: r' => some ([j], r')
      | _ => none
    | none => none

def parseMembers : Nat → List Char → Option (List (String × Json) × List Char)
  | 0, _ => none
  | fuel + 1, l =>
    match skipWs l with
    | '"' :: rest =>
      match parseStrBody fuel rest with
      | some (kcs, r) =>
        match skipWs r with
        | ':' :: r' =>
          match parseVal fuel r' with
          | some (v, r'') =>
            match skipWs r'' with
            | ',' :: r3 =>
              match parseMembers fuel r3 with
              | some (fs, r4) => some ((String.mk kcs, v) :: fs, r4)
              | none => none
            | '}' :: r3 => some ([(String.mk kcs, v)], r3)
            | _ => none
          | none => none
        | _ => none
      | none => none
    | _ => none

end

/-- `json.loads`: strict parse of the whole string, modulo surrounding
whitespace. -/
def parseJson (s : String) : Option Json :=
  match parseVal (2 * s.length + 4) s.data with
  | some (j, rest) => if skipWs rest = [] then some j else none
  | none => none

/-! ### Recovery spans for malformed provider output -/

/-- Drop characters up to (but keeping) the first opening brace. -/
def dropToBrace : List Char → List Char
  | [] => []
  | c :: t => if c = '{' then c :: t else dropToBrace t

/-- Keep the prefix of the input up to and including the last closing
brace; `none` when no closing brace occurs. -/
def keepToLastClose (l : List Char) : Option (List Char) :=
  match dropToBrace' l.reverse with
  | [] => none
  | r => some r.reverse
where
  dropToBrace' : List Char → List Char
    | [] => []
    | c :: t => if c = '}' then c :: t else dropToBrace' t

/-- The span matched by `re.search(r'\x7b.*\x7d', s, re.DOTALL)`: the
greedy match runs from the first opening brace to the last closing brace
of the whole text (DOTALL makes `.` cross newlines).  `none` when the
regex does not match. -/
def greedyBraceSpan (s : String) : Option String :=
  match dropToBrace s.data with
  | '{' :: rest =>
    match keepToLastClose rest with
    | some body => some (String.mk ('{' :: body))
    | none => none
  | _ => none

/-- Modelled from the spec: the structural recovery the spec describes,
scanning the raw text for the *first balanced* brace span (depth
counting, as in the spec's redesign note).  Present only to compare with
the source's `greedyBraceSpan`. -/
def firstBalancedBraceSpan (s : String) : Option String :=
  match dropToBrace s.data with
  | '{' :: rest => go rest 1 ['{']
  | _ => none
where
  go : List Char → Nat → List Char → Option String
    | [], _, _ => none
    | c :: t, d, acc =>
      if c = '}' then
        if d = 1 then some (String.mk (c :: acc).reverse)
        else go t (d - 1) (c :: acc)
      else if c = '{' then go t (d + 1) (c :: acc)
      else go t d (c :: acc)

/-- The two-stage parse used on each provider response in
`analyze_with_ai`: strict `json.loads`, and on failure a strict parse of
the greedy regex span.  A `none` result corresponds to the branch that
raises (`Invalid JSON from ...` / a propagating `JSONDecodeError`). -/
def tryParseResponse (s : String) : Option Json :=
  match parseJson s with
  | some j => some j
  | none => (greedyBraceSpan s).bind parseJson

/-! ### `analyze_with_ai` -/

/-- One provider branch of `analyze_with_ai`: a transport/auth error,
a failed two-stage parse, or a non-dict parse result (the `TypeError`
raised by `result["ai_provider"] = tag`) all yield `none` and fall
through to the next tier; otherwise the parsed object is tagged with the
provider that produced it. -/
def providerAttempt (tag : String) (resp : Except String String) : Option Json :=
  match resp with
  | Except.error _ => none
  | Except.ok raw => (tryParseResponse raw).bind (fun j => jsonSetKey j "ai_provider" (Json.str tag))

/-- The value returned when both providers fail. -/
def negativeClassification : Json :=
  Json.obj [("is_funding_news", Json.bool false), ("companies", Json.arr []),
            ("ai_provider", Json.str "failed")]

/-- `analyze_with_ai`, with the two provider calls abstracted to their
outcomes (`Except.error` = transport/auth failure, `Except.ok raw` = the
raw completion text).  Besides the result, the pair records how many
times each provider was invoked.  The function is total: no branch
propagates an exception, which is the code's outer `except` structure. -/
def analyze_with_ai_run (primary secondary : Except String String) :
    Json × Nat × Nat :=
  match providerAttempt "emergent" primary with
  | some r => (r, 1, 0)
  | none =>
    match providerAttempt "groq" secondary with
    | some r => (r, 1, 1)
    | none => (negativeClassification, 1, 1)

def analyze_with_ai (primary secondary : Except String String) : Json :=
  (analyze_with_ai_run primary secondary).1

/-- The prompt built by `analyze_with_ai` (content truncated to 3000
characters); both providers receive the same prompt text. -/
def buildPrompt (content title : String) : String :=
  "Analyze this Indian news article for startup funding announcements: Title: "
    ++ title ++ " Content: " ++ (String.mk (content.data.take 3000))
    ++ " Extract information about Indian startups that received funding. Return only valid JSON."

/-! ### Data model

`Startup` mirrors the persisted pydantic model.  The `id` uuid and the
enrichment collaborator internals are environmental; timestamps are
abstract `Nat` instants supplied by the caller (`datetime.now`).
`funding_amount` / `funding_stage` are kept as raw JSON values because
the merge path writes the mention's raw value into the store without
re-validation, while the insert path validates them as optional
strings. -/

structure EnrichResult where
  website : Option String := none
  linkedin_profile : Option String := none
  facebook_profile : Option String := none
  founders : List String := []
  directors : List String := []

structure Startup where
  name : String
  funding_amount : Option Json := none
  funding_stage : Option Json := none
  investors : List String := []
  industry : Option String := none
  location : Option String := none
  website : Option String := none
  linkedin_profile : Option String := none
  facebook_profile : Option String := none
  founders : List String := []
  directors : List String := []
  source_url : Option String := none
  discovered_at : Nat := 0
  last_updated : Nat := 0
  verification_status : String := "pending"

/-- Python truthiness of a possibly-absent JSON field
(`dict.get` returning `None` is falsy). -/
def optTruthy : Option Json → Bool
  | none => false
  | some j => jsonTruthy j

/-- Pydantic validation of an `Optional[str]` field fed from a classified
mention, kept as raw JSON: absent and `null` become `None`; a string
stays; any other payload is a validation error that propagates as an
exception. -/
def jsonOptStrField : Option Json → Except String (Option Json)
  | none => Except.ok none
  | some Json.null => Except.ok none
  | some (Json.str s) => Except.ok (some (Json.str s))
  | some _ => Except.error "ValidationError"

/-- Same validation, for fields the merge path never rewrites
(`industry`, `location`), so plain strings suffice in the record. -/
def jsonOptStrPlain : Option Json → Except String (Option String)
  | none => Except.ok none
  | some Json.null => Except.ok none
  | some (Json.str s) => Except.ok (some s)
  | some _ => Except.error "ValidationError"

/-- A `List[str]` field fed from a mention: must be an array of strings
(non-list or non-string payloads surface as errors, matching the
pydantic validation on insert and the `TypeError` a list concatenation
with a non-list raises on merge). -/
def jsonStrList : Json → Except String (List String)
  | Json.arr es => go es
  | _ => Except.error "ValidationError"
where
  go : List Json → Except String (List String)
    | [] => Except.ok []
    | Json.str s :: t =>
      match go t with
      | Except.ok l => Except.ok (s :: l)
      | Except.error e => Except.error e
    | _ :: _ => Except.error "ValidationError"

/-- `company_data.get('name', '').strip()`: stripping succeeds only on a
string; on `None` (a present `name: null` field) and on any other
non-string payload Python raises `AttributeError`. -/
def stripName : Json → Except String String
  | Json.str s => Except.ok (pyStrip s)
  | _ => Except.error "AttributeError: NoneType object has no attribute strip"

/-- `db.startups.find_one({"name": n})`: first stored record with that
exact name. -/
def findByName (store : List Startup) (n : String) : Option Startup :=
  store.find? (fun r => r.name = n)

/-- Constructing the new `Startup` of the insert branch of
`process_found_companies` (pydantic-validated fields, enrichment data,
both timestamps set to now, verification pending). -/
def mentionNew (now : Nat) (e : EnrichResult) (name src : String) (cd : Json) :
    Except String Startup := do
  let fa ← jsonOptStrField (jsonGet cd "funding_amount")
  let fs ← jsonOptStrField (jsonGet cd "funding_stage")
  let inv ← jsonStrList ((jsonGet cd "investors").getD (Json.arr []))
  let ind ← jsonOptStrPlain (jsonGet cd "industry")
  let loc ← jsonOptStrPlain (jsonGet cd "location")
  Except.ok { name := name, funding_amount := fa, funding_stage := fs, investors := inv,
              industry := ind, location := loc,
              website := e.website, linkedin_profile := e.linkedin_profile,
              facebook_profile := e.facebook_profile,
              founders := e.founders, directors := e.directors,
              source_url := some src, discovered_at := now, last_updated := now,
              verification_status := "pending" }

/-- The `update_data` dict computed by the merge branch: an absent field
means "not written". -/
structure UpdateData where
  funding_amount : Option Json := none
  funding_stage : Option Json := none
  investors : Option (List String) := none

def UpdateData.isEmpty (u : UpdateData) : Bool :=
  u.funding_amount.isNone && u.funding_stage.isNone && u.investors.isNone

/-- The merge branch of `process_found_companies`: fill
`funding_amount` / `funding_stage` only when the mention supplies a
truthy value and the stored field is falsy; when the mention supplies a
truthy `investors` payload, store the deduplicated union of the stored
and supplied lists (Python's `list(set(a + b))`, modelled as `dedup` of
the concatenation — set iteration order is environmental, the claims
only constrain the resulting set). -/
def mergeUpdate (existing : Startup) (cd : Json) : Except String UpdateData :=
  let mfa := jsonGet cd "funding_amount"
  let mfs := jsonGet cd "funding_stage"
  let u0 : UpdateData := {}
  let u1 := if optTruthy mfa && !optTruthy existing.funding_amount
            then { u0 with funding_amount := mfa } else u0
  let u2 := if optTruthy mfs && !optTruthy existing.funding_stage
            then { u1 with funding_stage := mfs } else u1
  let minv := (jsonGet cd "investors").getD (Json.arr [])
  if jsonTruthy minv then
    match jsonStrList minv with
    | Except.ok invs =>
      Except.ok { u2 with investors := some ((existing.investors ++ invs).dedup) }
    | Except.error e => Except.error e
  else Except.ok u2

/-- `update_one({"name": n}, {"$set": update_data ∪ {last_updated: now}})`:
the write applies exactly the supplied fields and refreshes the
last-updated timestamp in the same write. -/
def applyUpdate (now : Nat) (u : UpdateData) (r : Startup) : Startup :=
  { r with
    funding_amount := match u.funding_amount with
      | some j => some j
      | none => r.funding_amount,
    funding_stage := match u.funding_stage with
      | some j => some j
      | none => r.funding_stage,
    investors := u.investors.getD r.investors,
    last_updated := now }

def updateFirst (store : List Startup) (n : String) (f : Startup → Startup) :
    List Startup :=
  match store with
  | [] => []
  | r :: t => if r.name = n then f r :: t else r :: updateFirst t n f

/-- One iteration of the `process_found_companies` loop on a classified
company mention (a raw JSON value).  Empty / whitespace-only names are
skipped silently; a non-string `name` (for example `null`) raises; an
absent record is inserted after enrichment; a present record receives
the field-level merge, with no write at all when the computed update is
empty. -/
def processMention (now : Nat) (enrich : String → EnrichResult) (src : String)
    (store : List Startup) (cd : Json) : Except String (List Startup) :=
  match cd with
  | Json.obj fs =>
    match stripName ((jsonGet (Json.obj fs) "name").getD (Json.str "")) with
    | Except.error e => Except.error e
    | Except.ok name =>
      if name = "" then Except.ok store
      else
        match findByName store name with
        | none =>
          match mentionNew now (enrich name) name src (Json.obj fs) with
          | Except.ok r => Except.ok (store ++ [r])
          | Except.error e => Except.error e
        | some existing =>
          match mergeUpdate existing (Json.obj fs) with
          | Except.error e => Except.error e
          | Except.ok u =>
            if u.isEmpty then Except.ok store
            else Except.ok (updateFirst store name (applyUpdate now u))
  | _ => Except.error "AttributeError: get"

/-- `process_found_companies`: left-to-right processing of the batch.
Database writes made before a raising mention persist; the remaining
mentions of the batch are not processed — hence the partial store is
returned together with the escaped exception, if any. -/
def process_found_companies (now : Nat) (enrich : String → EnrichResult)
    (companies : List Json) (source_url : String) (store : List Startup) :
    List Startup × Option String :=
  match companies with
  | [] => (store, none)
  | cd :: rest =>
    match processMention now enrich source_url store cd with
    | Except.error e => (store, some e)
    | Except.ok store' => process_found_companies now enrich rest source_url store'

/-! ### Keyword pre-filters and URL utilities -/

def listStartsWith : List Char → List Char → Bool
  | [], _ => true
  | _ :: _, [] => false
  | a :: as, b :: bs => a = b && listStartsWith as bs

def listHasSub (n : List Char) : List Char → Bool
  | [] => n.isEmpty
  | c :: t => listStartsWith n (c :: t) || listHasSub n t

/-- Python's `needle in haystack` on strings. -/
def substrIn (needle hay : String) : Bool :=
  listHasSub needle.data hay.data

/-- Python `str.lower()` (ASCII model: the keyword filters and the
claims only exercise ASCII text). -/
def lowChar (c : Char) : Char :=
  if 65 ≤ c.toNat ∧ c.toNat ≤ 90 then Char.ofNat (c.toNat + 32) else c

def pyLower (s : String) : String := String.mk (s.data.map lowChar)


/-- Python `sep.join(parts)`. -/
def joinSep (sep : String) : List String → String
  | [] => ""
  | [x] => x
  | x :: xs => x ++ sep ++ joinSep sep xs

/-- Break the input at the first occurrence of the (nonempty) separator,
returning the text before it and the text after it; `none` when the
separator does not occur. -/
def breakOnSub (sep : List Char) : List Char → Option (List Char × List Char)
  | [] => none
  | c :: t =>
    if listStartsWith sep (c :: t) then some ([], (c :: t).drop sep.length)
    else
      match breakOnSub sep t with
      | some (pre, post) => some (c :: pre, post)
      | none => none

/-- Element `[1]` of Python's `s.split(sep)`: the text between the first
and the second occurrence of the separator (to the end of the text when
there is no second occurrence); `none` when the separator does not
occur at all. -/
def pySplitSecond (sep : List Char) (l : List Char) : Option (List Char) :=
  match breakOnSub sep l with
  | none => none
  | some (_, post) =>
    match breakOnSub sep post with
    | some (seg, _) => some seg
    | none => some post

/-- Element `[0]` of Python's `s.split(sep)`: the text before the first
occurrence of the separator (the whole text when it does not occur). -/
def pySplitFirst (sep : List Char) (l : List Char) : List Char :=
  match breakOnSub sep l with
  | some (pre, _) => pre
  | none => l

def rssKeywords : List String :=
  ["startup", "funding", "investment", "raised", "series", "venture", "capital"]

def searchKeywords : List String :=
  ["startup", "funding", "investment", "raised", "series", "venture"]

def directKeywords : List String :=
  ["startup", "funding", "investment"]

/-- `any(keyword in text for keyword in kws)`. -/
def keywordHit (text : String) (kws : List String) : Bool :=
  kws.any (fun k => substrIn k text)

def GOOGLE_SEARCH_TERMS : List String :=
  ["Indian startup funding 2025", "Series A funding India startup",
   "venture capital investment India", "Indian startup raises funding",
   "startup funding round India", "Indian unicorn funding",
   "seed funding Indian startup", "Series B funding India",
   "Indian startup investment news"]

/-- Truthiness of an optional string (`None` and the empty string are
falsy): used for `source.rss_feed` and for selector-hint presence
(`'title' in selectors and selectors['title']`). -/
def strOptTruthy : Option String → Bool
  | none => false
  | some s => s ≠ ""

/-- The Google News link indirection decoding: when the link is an
aggregator wrapper, take the text between the first `url=` and the next
`&` and URL-decode it (`urllib.parse.unquote` is a collaborator,
supplied as `unquoteUrl`).  Otherwise the link is used as is. -/
def cleanGoogleUrl (unquoteUrl : String → String) (link : String) : String :=
  if substrIn "news.google.com" link && substrIn "url=" link then
    match pySplitSecond "url=".data link.data with
    | some part => unquoteUrl (String.mk (pySplitFirst "&".data part))
    | none => link
  else link

/-! ### ContentExtractor (`scrape_article_content`) -/

/-- The outcome of one collaborator HTTP fetch: a raised transport
exception (timeout, connection error) or a response with a status code
and a parsed body. -/
inductive FetchResult (α : Type) where
  | raiseErr (msg : String) : FetchResult α
  | resp (status : Nat) (body : α) : FetchResult α

/-- The structured-markup view of a fetched page: `select_one` returns
the stripped text of the first element matching a CSS selector (`none`
when no element matches), `page_title` is the stripped text of the
page-level `title` element, `paragraphs` the stripped texts of the
paragraph nodes in document order. -/
structure Soup where
  select_one : String → Option String
  page_title : Option String
  paragraphs : List String

/-- The per-source selector-hint map (`css_selectors`); an absent or
empty entry behaves as no hint. -/
structure Selectors where
  title : Option String := none
  content : Option String := none
  date : Option String := none

structure Article where
  url : String
  title : String
  content : String
  date : String

def genericContentSelectors : List String :=
  [".article-content", ".content", ".post-content", "article", ".entry-content"]

/-- The generic content-region fallback: the first selector of the fixed
list whose matched text is longer than 100 characters. -/
def firstGenericContent (soup : Soup) : Option String :=
  go genericContentSelectors
where
  go : List String → Option String
    | [] => none
    | sel :: rest =>
      match soup.select_one sel with
      | some t => if t.length > 100 then some t else go rest
      | none => go rest

/-- The extraction logic of `scrape_article_content` on a successfully
fetched page.  Note the branch shape of the source: when a hint is
present for a field, only the hinted selector is consulted — a hint
matching no element leaves the field empty instead of falling through
(`elif` for the title, `else` for the content). -/
def extractArticle (soup : Soup) (url : String) (sel : Selectors) : Article :=
  let title :=
    if strOptTruthy sel.title then
      (soup.select_one (sel.title.getD "")).getD ""
    else
      soup.page_title.getD ""
  let content :=
    if strOptTruthy sel.content then
      (soup.select_one (sel.content.getD "")).getD ""
    else
      match firstGenericContent soup with
      | some t => t
      | none => joinSep " " (soup.paragraphs.take 10)
  let date :=
    if strOptTruthy sel.date then
      (soup.select_one (sel.date.getD "")).getD ""
    else ""
  { url := url, title := title, content := content, date := date }

/-- `scrape_article_content`: a raised fetch exception or a non-200
status yields `None` (no content to classify); a 200 response is parsed
and extracted. -/
def scrape_article_content (fetch : FetchResult Soup) (url : String)
    (sel : Selectors) : Option Article :=
  match fetch with
  | FetchResult.raiseErr _ => none
  | FetchResult.resp status soup =>
    if status = 200 then some (extractArticle soup url sel) else none

/-! ### ScrapeOrchestrator state -/

structure ScrapingLog where
  source_id : String
  source_name : String
  status : String
  articles_processed : Nat := 0
  startups_found : Nat := 0
  error_message : Option String := none
  ai_provider_used : String := "unknown"
deriving DecidableEq

def initLog (sid sname : String) : ScrapingLog :=
  { source_id := sid, source_name := sname, status := "running" }

/-- The in-pass mutable state: the log under construction and the
persisted startup store. -/
structure PassState where
  log : ScrapingLog
  startups : List Startup

structure NewsSource where
  id : String
  name : String
  url : String
  rss_feed : Option String := none
  css_selectors : Selectors := {}
  is_active : Bool := true
  source_type : String := "rss"

/-! ### Collaborator bundle for one pass -/

structure RssItem where
  title : Option String := none
  link : Option String := none
  description : Option String := none

structure Anchor where
  href : String
  text : String

/-- One parsed Google result block (`.g`): the optional title element,
the optional anchor (with its `href`, defaulted to the empty string by
`get('href', '')`), and the optional snippet element. -/
structure GBlock where
  titleElem : Option String := none
  linkHref : Option String := none
  snippetElem : Option String := none

structure GResult where
  title : String
  url : String
  snippet : String

/-- All collaborators one orchestrator pass may consult, abstracted to
their outcomes. -/
structure Ctx where
  fetchFeed : FetchResult (List RssItem)
  rootFetch : FetchResult (List Anchor)
  searchFetch : String → FetchResult (List GBlock)
  articleFetch : String → FetchResult Soup
  primary : String → Except String String
  secondary : String → Except String String
  enrich : String → EnrichResult
  unquoteUrl : String → String
  joinUrl : String → String → String
  now : Nat

def jsonGetStrD (j : Json) (k d : String) : String :=
  match jsonGet j k with
  | some (Json.str s) => s
  | some _ => d
  | none => d

/-- The classify-and-dedupe block shared verbatim by the three source
kinds: run `analyze_with_ai`, record the provider tag in the log, and
when the analysis flags funding news with a non-empty company list,
process the companies.  Returns the new state, the escaped exception if
any, and the number of companies counted (`len(analysis['companies'])`,
added to the relevant counter by the caller only when no exception
escaped, since the increment follows the processing call). -/
def classifyAndProcess (ctx : Ctx) (content title link : String) (st : PassState) :
    (PassState × Option String) × Nat :=
  let prompt := buildPrompt content title
  let analysis := analyze_with_ai (ctx.primary prompt) (ctx.secondary prompt)
  let st := { st with log := { st.log with ai_provider_used := jsonGetStrD analysis "ai_provider" "unknown" } }
  if optTruthy (jsonGet analysis "is_funding_news") && optTruthy (jsonGet analysis "companies") then
    match jsonGet analysis "companies" with
    | some (Json.arr cs) =>
      match process_found_companies ctx.now ctx.enrich cs link st.startups with
      | (store', some e) => (({ st with startups := store' }, some e), 0)
      | (store', none) => (({ st with startups := store' }, none), cs.length)
    | _ => ((st, some "TypeError: companies payload is not a list of dicts"), 0)
  else ((st, none), 0)

/-! ### SourceFetcher, feed kind (`scrape_rss_feed`) -/

def rssProcessItem (ctx : Ctx) (sel : Selectors) (st : PassState) (item : RssItem) :
    PassState × Option String :=
  let title := item.title.getD ""
  let link := item.link.getD ""
  let description := item.description.getD ""
  let link := cleanGoogleUrl ctx.unquoteUrl link
  if link ≠ "" ∧ title ≠ "" then
    if keywordHit (pyLower title ++ pyLower description) rssKeywords then
      match scrape_article_content (ctx.articleFetch link) link sel with
      | some art =>
        if art.content ≠ "" then
          let useTitle := if art.title ≠ "" then art.title else title
          match classifyAndProcess ctx art.content useTitle link st with
          | ((st', some e), _) => (st', some e)
          | ((st', none), cnt) =>
            ({ st' with log := { st'.log with startups_found := st'.log.startups_found + cnt } }, none)
        else (st, none)
      | none => (st, none)
    else (st, none)
  else (st, none)

def rssLoop (ctx : Ctx) (sel : Selectors) :
    List RssItem → PassState → PassState × Option String
  | [], st => (st, none)
  | it :: rest, st =>
    match rssProcessItem ctx sel st it with
    | (st', none) => rssLoop ctx sel rest st'
    | (st', some e) => (st', some e)

/-- `scrape_rss_feed`: any exception inside the body — including the
feed fetch itself — is re-raised wrapped as `RSS scraping error: ...`;
a non-200 feed response silently contributes nothing. -/
def scrape_rss_feed (ctx : Ctx) (sel : Selectors) (st : PassState) :
    PassState × Option String :=
  match ctx.fetchFeed with
  | FetchResult.raiseErr msg => (st, some ("RSS scraping error: " ++ msg))
  | FetchResult.resp status items =>
    if status = 200 then
      let items := items.take 15
      let st := { st with log := { st.log with articles_processed := items.length } }
      match rssLoop ctx sel items st with
      | (st', none) => (st', none)
      | (st', some e) => (st', some ("RSS scraping error: " ++ e))
    else (st, none)

/-! ### SourceFetcher, direct kind (`scrape_website_directly`) -/

def directStep (ctx : Ctx) (sel : Selectors) (href : String) (st : PassState) :
    PassState × Option String :=
  match scrape_article_content (ctx.articleFetch href) href sel with
  | some art =>
    if art.content ≠ "" then
      match classifyAndProcess ctx art.content art.title href st with
      | ((st', some e), _) => (st', some e)
      | ((st', none), cnt) =>
        ({ st' with log := { st'.log with startups_found := st'.log.startups_found + cnt } }, none)
    else (st, none)
  | none => (st, none)

def directLoop (ctx : Ctx) (srcUrl : String) (sel : Selectors) :
    List Anchor → Nat → PassState → (PassState × Nat) × Option String
  | [], processed, st => ((st, processed), none)
  | a :: rest, processed, st =>
    if a.href ≠ "" ∧ keywordHit (pyLower a.href ++ pyLower a.text) directKeywords then
      let href := if listStartsWith "http".data a.href.data then a.href else ctx.joinUrl srcUrl a.href
      match directStep ctx sel href st with
      | (st', some e) => ((st', processed), some e)
      | (st', none) =>
        let processed := processed + 1
        if processed ≥ 10 then ((st', processed), none)
        else directLoop ctx srcUrl sel rest processed st'
    else directLoop ctx srcUrl sel rest processed st

/-- `scrape_website_directly`: same wrapping discipline as the feed
kind, with the `Website scraping error: ` prefix; at most 25 anchors
scanned and at most 10 keyword-matching anchors processed. -/
def scrape_website_directly (ctx : Ctx) (srcUrl : String) (sel : Selectors)
    (st : PassState) : PassState × Option String :=
  match ctx.rootFetch with
  | FetchResult.raiseErr msg => (st, some ("Website scraping error: " ++ msg))
  | FetchResult.resp status anchors =>
    if status = 200 then
      match directLoop ctx srcUrl sel (anchors.take 25) 0 st with
      | ((st', processed), none) =>
        ({ st' with log := { st'.log with articles_processed := processed } }, none)
      | ((st', _), some e) => (st', some ("Website scraping error: " ++ e))
    else (st, none)

/-! ### SourceFetcher, search kind (`google_search_scraping` and
`scrape_google_search`) -/

/-- One iteration of the result-block loop: require a title element and
an anchor, then keep the block only when the lowercased title+snippet
text contains one of the fixed keywords. -/
def googleResultStep (acc : List GResult) (b : GBlock) : List GResult :=
  match b.titleElem, b.linkHref with
  | some t, some href =>
    let sn := b.snippetElem.getD ""
    if keywordHit (pyLower t ++ pyLower sn) searchKeywords then
      acc ++ [{ title := t, url := href, snippet := sn }]
    else acc
  | _, _ => acc

/-- `google_search_scraping`: keeps every parsed result block that has a
title and an anchor and whose lowercased title+snippet text contains a
keyword.  The requested result count (`max_results`, 5 per term when
called from the search pass) only parametrises the query URL — no cap is
applied to the parsed list.  Any raised exception is swallowed and the
results accumulated so far (none, since parsing is pure) are returned. -/
def google_search_scraping (fetch : FetchResult (List GBlock)) : List GResult :=
  match fetch with
  | FetchResult.raiseErr _ => []
  | FetchResult.resp status blocks =>
    if status = 200 then blocks.foldl googleResultStep []
    else []

def searchResultStep (ctx : Ctx) (st : PassState) (total : Nat) (r : GResult) :
    (PassState × Nat) × Option String :=
  if r.url ≠ "" ∧ r.title ≠ "" then
    let art := scrape_article_content (ctx.articleFetch r.url) r.url {}
    let content := match art with
      | some a => a.content
      | none => r.snippet
    if content ≠ "" then
      match classifyAndProcess ctx content r.title r.url st with
      | ((st', some e), _) => ((st', total), some e)
      | ((st', none), cnt) => ((st', total + cnt), none)
    else ((st, total), none)
  else ((st, total), none)

def searchResultsLoop (ctx : Ctx) :
    List GResult → PassState → Nat → (PassState × Nat) × Option String
  | [], st, total => ((st, total), none)
  | r :: rest, st, total =>
    match searchResultStep ctx st total r with
    | ((st', total'), none) => searchResultsLoop ctx rest st' total'
    | ((st', total'), some e) => ((st', total'), some e)

def searchTermsLoop (ctx : Ctx) :
    List String → PassState → Nat → (PassState × Nat) × Option String
  | [], st, total => ((st, total), none)
  | term :: rest, st, total =>
    let results := google_search_scraping (ctx.searchFetch term)
    let st := { st with log := { st.log with articles_processed := st.log.articles_processed + results.length } }
    match searchResultsLoop ctx results st total with
    | ((st', total'), none) => searchTermsLoop ctx rest st' total'
    | ((st', total'), some e) => ((st', total'), some e)

/-- `scrape_google_search`: iterates only the first 3 fixed query terms;
the per-pass found count is assigned (not accumulated) into the log when
the loop completes; exceptions are wrapped as
`Google search scraping error: ...`. -/
def scrape_google_search (ctx : Ctx) (st : PassState) : PassState × Option String :=
  match searchTermsLoop ctx (GOOGLE_SEARCH_TERMS.take 3) st 0 with
  | ((st', total), none) =>
    ({ st' with log := { st'.log with startups_found := total } }, none)
  | ((st', _), some e) => (st', some ("Google search scraping error: " ++ e))

/-! ### ScrapeOrchestrator (`scrape_news_source`) -/

/-- The branch dispatch of `scrape_news_source`. -/
def passBody (ctx : Ctx) (source : NewsSource) (st : PassState) :
    PassState × Option String :=
  if source.source_type = "rss" ∧ strOptTruthy source.rss_feed then
    scrape_rss_feed ctx source.css_selectors st
  else if source.source_type = "search" then
    scrape_google_search ctx st
  else
    scrape_website_directly ctx source.url source.css_selectors st

/-- `scrape_news_source`: build the `running` log, run the dispatched
branch, set `success` when nothing escaped (or `error` with the message
when something did), and append exactly one log row to the store. -/
def scrape_news_source (ctx : Ctx) (source : NewsSource) (startups : List Startup)
    (logs : List ScrapingLog) : PassState × List ScrapingLog :=
  let st0 : PassState := { log := initLog source.id source.name, startups := startups }
  let res := passBody ctx source st0
  let finalLog := match res.2 with
    | none => { res.1.log with status := "success" }
    | some e => { res.1.log with status := "error", error_message := some e }
  ({ res.1 with log := finalLog }, logs ++ [finalLog])

/-! ### Test-harness inputs and spec-following comparison definitions -/

/-- The trivial enrichment collaborator outcome (best-effort empties). -/
def emptyEnrich : String → EnrichResult := fun _ => {}

/-- A collaborator bundle in which every network operation raises a
connection timeout. -/
def ctxAllTimeout : Ctx :=
  { fetchFeed := FetchResult.raiseErr "Connection timeout",
    rootFetch := FetchResult.raiseErr "Connection timeout",
    searchFetch := fun _ => FetchResult.raiseErr "Connection timeout",
    articleFetch := fun _ => FetchResult.raiseErr "Connection timeout",
    primary := fun _ => Except.error "down",
    secondary := fun _ => Except.error "down",
    enrich := emptyEnrich,
    unquoteUrl := id,
    joinUrl := fun _ h => h,
    now := 0 }

def sourceRss : NewsSource :=
  { id := "s1", name := "Feed", url := "http://f", rss_feed := some "http://f/rss",
    source_type := "rss" }

/-- A page on which no CSS selector matches anything, with a page-level
title element and one paragraph node. -/
def soupNoMatch : Soup :=
  { select_one := fun _ => none,
    page_title := some "Page Title",
    paragraphs := ["Funding story body"] }

def selHinted : Selectors := { title := some "h1", content := some ".artText" }

/-- Modelled from the spec (C6's wording): the title fallback chain in
which a hinted selector that matches nothing falls through to the
page-level title element and then to the empty string. -/
def titleChainClaim (soup : Soup) (sel : Selectors) : String :=
  match (if strOptTruthy sel.title then soup.select_one (sel.title.getD "") else none) with
  | some t => t
  | none => soup.page_title.getD ""

/-- Modelled from the spec (C6's wording): the content fallback chain in
which a hinted selector that matches nothing falls through to the
generic selectors and then to the paragraph concatenation. -/
def contentChainClaim (soup : Soup) (sel : Selectors) : String :=
  match (if strOptTruthy sel.content then soup.select_one (sel.content.getD "") else none) with
  | some t => t
  | none =>
    match firstGenericContent soup with
    | some t => t
    | none => joinSep " " (soup.paragraphs.take 10)

/-- The amended resolution: hint presence selects the branch — a present
hint is authoritative and yields the empty string when it matches
nothing; only an absent (or empty) hint uses the fallback. -/
def fieldResolve (soup : Soup) (hint : Option String) (fallback : Unit → String) : String :=
  if strOptTruthy hint then (soup.select_one (hint.getD "")).getD ""
  else fallback ()

def extractArticleAmended (soup : Soup) (url : String) (sel : Selectors) : Article :=
  { url := url,
    title := fieldResolve soup sel.title (fun _ => soup.page_title.getD ""),
    content := fieldResolve soup sel.content (fun _ =>
      match firstGenericContent soup with
      | some t => t
      | none => joinSep " " (soup.paragraphs.take 10)),
    date := fieldResolve soup sel.date (fun _ => "") }

/-- A parsed Google result block whose title passes the keyword filter. -/
def gBlockStartup : GBlock :=
  { titleElem := some "Startup funding news", linkHref := some "http://r",
    snippetElem := some "" }

/-- Encode an optional free-text field of a classified mention. -/
def optJ : Option String → Json
  | some s => Json.str s
  | none => Json.null

/-- A classified company mention with string-typed fields, the shape the
classification prompt demands. -/
def mentionJson (nm : String) (fa fsg ind loc : Option String) (inv : List String) : Json :=
  Json.obj [("name", Json.str nm), ("funding_amount", optJ fa),
            ("funding_stage", optJ fsg), ("investors", Json.arr (inv.map Json.str)),
            ("industry", optJ ind), ("location", optJ loc)]

/-- The stored record of the C4 name-collision scenario: funding amount
unset, investors `["X"]`. -/
def acme0 : Startup := { name := "Acme", investors := ["X"], source_url := some "old" }

/-- The incoming mention of the C4 scenario. -/
def cdAcme : Json := mentionJson "Acme" (some "$2M") none none none ["Y"]

/-- A fully-populated stored record (C7 scenario). -/
def acmeFull : Startup :=
  { name := "Acme", funding_amount := some (Json.str "$1M"),
    funding_stage := some (Json.str "Seed"), investors := ["X"],
    source_url := some "old" }

/-- A mention that supplies nothing new: no funding fields and an
investor already stored. -/
def cdNoop : Json := mentionJson "Acme" none none none none ["X"]

def mAlpha : Json := Json.obj [("name", Json.str "Alpha")]

/-- A mention whose `name` key is present but `null`. -/
def mNullName : Json := Json.obj [("name", Json.null)]

def mBeta : Json := Json.obj [("name", Json.str "Beta")]

/-- A mention with no `name` key at all. -/
def mNoName : Json := Json.obj [("industry", Json.str "Fintech")]

/-- A mention whose name is whitespace only. -/
def mWsName : Json := Json.obj [("name", Json.str "   ")]

/-- A provider completion that classifies the article as funding news
with a single company whose `name` is `null`. -/
def rawNullCompany : String :=
  "\x7b\"is_funding_news\": true, \"companies\": [\x7b\"name\": null\x7d]\x7d"

def soupPlain : Soup :=
  { select_one := fun _ => none, page_title := some "T",
    paragraphs := ["Startup funding content"] }

/-- An end-to-end collaborator bundle: the feed yields one relevant
item, the article fetch succeeds, and the primary provider reports one
company with a `null` name. -/
def ctxNullCompany : Ctx :=
  { fetchFeed := FetchResult.resp 200
      [{ title := some "Big startup funding round", link := some "http://a",
         description := some "" }],
    rootFetch := FetchResult.resp 404 [],
    searchFetch := fun _ => FetchResult.raiseErr "na",
    articleFetch := fun _ => FetchResult.resp 200 soupPlain,
    primary := fun _ => Except.ok rawNullCompany,
    secondary := fun _ => Except.error "no",
    enrich := emptyEnrich,
    unquoteUrl := id,
    joinUrl := fun _ h => h,
    now := 0 }

/-- A 101-character text, long enough for the generic content-region
threshold. -/
def longText : String := String.mk (List.replicate 101 'a')

/-- A page on which every selector matches an element with `longText`. -/
def soupLong : Soup :=
  { select_one := fun _ => some longText, page_title := none, paragraphs := [] }

/-! ## Claims -/

/-- C1: for every orchestrator invocation (`scrape_news_source` on a
source, over any collaborator outcomes), exactly one `ScrapeLog` row is
appended to the persisted log store, its `status` is `success` iff no
exception escaped the dispatched fetch/extract/classify/dedupe body, it
is `error` otherwise, and in the error case the escaped message is
captured in `error_message`. -/
theorem scrape_news_source_log_invariant (ctx : Ctx) (source : NewsSource)
    (startups : List Startup) (logs : List ScrapingLog) :
    (scrape_news_source ctx source startups logs).2 =
        logs ++ [(scrape_news_source ctx source startups logs).1.log] ∧
    (scrape_news_source ctx source startups logs).2.length = logs.length + 1 ∧
    ((scrape_news_source ctx source startups logs).1.log.status = "success" ↔
        (passBody ctx source { log := initLog source.id source.name, startups := startups }).2 = none) ∧
    ((scrape_news_source ctx source startups logs).1.log.status = "error" ↔
        (passBody ctx source { log := initLog source.id source.name, startups := startups }).2 ≠ none) ∧
    ((scrape_news_source ctx source startups logs).1.log.error_message =
      match (passBody ctx source { log := initLog source.id source.name, startups := startups }).2 with
      | some e => some e
      | none => (passBody ctx source { log := initLog source.id source.name, startups := startups }).1.log.error_message) := by
  unfold scrape_news_source
  cases h : (passBody ctx source { log := initLog source.id source.name, startups := startups }).2 <;>
    simp [h]

/-- C2: with the two provider calls abstracted to their outcomes, the
classification function is total (every branch returns a value), each
provider is invoked at most once per call, the secondary is invoked
exactly when the primary attempt fails (transport error or both parse
stages failing), and when both providers fail the result is exactly the
negative classification tagged `failed`. -/
theorem analyze_with_ai_degrade_chain (p s : Except String String)
    (hp : providerAttempt "emergent" p = none)
    (hs : providerAttempt "groq" s = none) :
    analyze_with_ai p s = negativeClassification ∧
    jsonGet (analyze_with_ai p s) "is_funding_news" = some (Json.bool false) ∧
    jsonGet (analyze_with_ai p s) "companies" = some (Json.arr []) ∧
    jsonGet (analyze_with_ai p s) "ai_provider" = some (Json.str "failed") ∧
    (∀ p' s' : Except String String,
      (analyze_with_ai_run p' s').2.1 = 1 ∧
      (analyze_with_ai_run p' s').2.2 ≤ 1 ∧
      ((analyze_with_ai_run p' s').2.2 = 1 ↔ providerAttempt "emergent" p' = none)) := by
  refine ⟨?_, ?_, ?_, ?_, ?_⟩
  · unfold analyze_with_ai analyze_with_ai_run
    rw [hp, hs]
  · unfold analyze_with_ai analyze_with_ai_run
    rw [hp, hs]
    rfl
  · unfold analyze_with_ai analyze_with_ai_run
    rw [hp, hs]
    rfl
  · unfold analyze_with_ai analyze_with_ai_run
    rw [hp, hs]
    rfl
  · intro p' s'
    unfold analyze_with_ai_run
    cases hp' : providerAttempt "emergent" p' <;>
      cases hs' : providerAttempt "groq" s' <;> simp [hp']

/-- Witness for C2 at a pair of transport failures. -/
theorem analyze_with_ai_degrade_chain_witness :
    analyze_with_ai (Except.error "boom") (Except.error "down") = negativeClassification ∧
    jsonGet (analyze_with_ai (Except.error "boom") (Except.error "down")) "is_funding_news" = some (Json.bool false) ∧
    jsonGet (analyze_with_ai (Except.error "boom") (Except.error "down")) "companies" = some (Json.arr []) ∧
    jsonGet (analyze_with_ai (Except.error "boom") (Except.error "down")) "ai_provider" = some (Json.str "failed") ∧
    (∀ p' s' : Except String String,
      (analyze_with_ai_run p' s').2.1 = 1 ∧
      (analyze_with_ai_run p' s').2.2 ≤ 1 ∧
      ((analyze_with_ai_run p' s').2.2 = 1 ↔ providerAttempt "emergent" p' = none)) :=
  analyze_with_ai_degrade_chain (Except.error "boom") (Except.error "down") rfl rfl

/-- C3 counterexample: the claim says recovery parses the *first
balanced* brace span of the raw text.  On the response `\x7b\x7d \x7b\x7d`
the first balanced span is `\x7b\x7d`, which strictly parses to the empty
object — yet the code's recovery (the greedy regex span from the first
`\x7b` to the last `\x7d`) fails to parse, and the response is rejected. -/
theorem tryParseResponse_not_first_balanced_span :
    parseJson "\x7b\x7d \x7b\x7d" = none ∧
    (firstBalancedBraceSpan "\x7b\x7d \x7b\x7d").bind parseJson = some (Json.obj []) ∧
    tryParseResponse "\x7b\x7d \x7b\x7d" = none :=
  ⟨rfl, rfl, rfl⟩

/-- C3 amended: the recovery parses the span from the first opening
brace to the *last* closing brace of the raw text (the greedy regex
match); on the spec's example response this coincides with the single
balanced span and the object is recovered. -/
theorem tryParseResponse_greedy_recovery :
    tryParseResponse "Here is the result: \x7b\"is_funding_news\": true, \"companies\": []\x7d Thanks." =
      some (Json.obj [("is_funding_news", Json.bool true), ("companies", Json.arr [])]) ∧
    greedyBraceSpan "Here is the result: \x7b\"is_funding_news\": true, \"companies\": []\x7d Thanks." =
      some "\x7b\"is_funding_news\": true, \"companies\": []\x7d" ∧
    greedyBraceSpan "a\x7bb\x7d \x7bc\x7dd" = some "\x7bb\x7d \x7bc\x7d" :=
  ⟨rfl, rfl, rfl⟩

/-- C5 counterexample: a raised connection timeout on the source-level
fetch is *not* absorbed into an empty result — both the feed and the
direct fetcher re-raise it wrapped, and the enclosing pass is recorded
with status `error`, contradicting "never raises past its boundary /
never escalated". -/
theorem fetch_failure_escalates :
    (scrape_rss_feed ctxAllTimeout {} { log := initLog "s1" "Feed", startups := [] }).2 =
      some "RSS scraping error: Connection timeout" ∧
    (scrape_website_directly ctxAllTimeout "http://f" {}
        { log := initLog "s1" "Feed", startups := [] }).2 =
      some "Website scraping error: Connection timeout" ∧
    (scrape_news_source ctxAllTimeout sourceRss [] []).1.log.status = "error" ∧
    (scrape_news_source ctxAllTimeout sourceRss [] []).1.log.error_message =
      some "RSS scraping error: Connection timeout" :=
  ⟨rfl, rfl, rfl, rfl⟩

/-- C5 amended: a non-2xx source-level response yields an empty result
with zero contribution and no classification (the state is returned
unchanged), and a per-candidate article fetch failure of either kind
yields `none`; but a raised transport error on the source-level fetch is
re-raised wrapped with the source-kind prefix and escalates to the pass
boundary. -/
theorem fetch_failure_handling (ctx : Ctx) (sel : Selectors)
    (srcUrl url msg : String) (st : PassState) (status : Nat)
    (items : List RssItem) (anchors : List Anchor) (soup : Soup)
    (hstatus : status ≠ 200) :
    scrape_rss_feed { ctx with fetchFeed := FetchResult.raiseErr msg } sel st =
      (st, some ("RSS scraping error: " ++ msg)) ∧
    scrape_rss_feed { ctx with fetchFeed := FetchResult.resp status items } sel st =
      (st, none) ∧
    scrape_website_directly { ctx with rootFetch := FetchResult.raiseErr msg } srcUrl sel st =
      (st, some ("Website scraping error: " ++ msg)) ∧
    scrape_website_directly { ctx with rootFetch := FetchResult.resp status anchors } srcUrl sel st =
      (st, none) ∧
    scrape_article_content (FetchResult.raiseErr msg) url sel = none ∧
    scrape_article_content (FetchResult.resp status soup) url sel = none := by
  refine ⟨rfl, ?_, rfl, ?_, rfl, ?_⟩ <;>
    simp [scrape_rss_feed, scrape_website_directly, scrape_article_content, hstatus]

/-- Witness for C5 amended at a 404 response and a timeout message. -/
theorem fetch_failure_handling_witness :
    scrape_rss_feed { ctxAllTimeout with fetchFeed := FetchResult.raiseErr "Connection timeout" } {}
        { log := initLog "s1" "Feed", startups := [] } =
      ({ log := initLog "s1" "Feed", startups := [] },
        some ("RSS scraping error: " ++ "Connection timeout")) ∧
    scrape_rss_feed { ctxAllTimeout with fetchFeed := FetchResult.resp 404 [] } {}
        { log := initLog "s1" "Feed", startups := [] } =
      ({ log := initLog "s1" "Feed", startups := [] }, none) ∧
    scrape_website_directly { ctxAllTimeout with rootFetch := FetchResult.raiseErr "Connection timeout" }
        "http://f" {} { log := initLog "s1" "Feed", startups := [] } =
      ({ log := initLog "s1" "Feed", startups := [] },
        some ("Website scraping error: " ++ "Connection timeout")) ∧
    scrape_website_directly { ctxAllTimeout with rootFetch := FetchResult.resp 404 [] }
        "http://f" {} { log := initLog "s1" "Feed", startups := [] } =
      ({ log := initLog "s1" "Feed", startups := [] }, none) ∧
    scrape_article_content (FetchResult.raiseErr "Connection timeout") "http://a" {} = none ∧
    scrape_article_content (FetchResult.resp 404 soupPlain) "http://a" {} = none :=
  fetch_failure_handling ctxAllTimeout {} "http://f" "http://a" "Connection timeout"
    { log := initLog "s1" "Feed", startups := [] } 404 [] [] soupPlain (by decide)

/-- C6 counterexample: with a title hint and a content hint that match
no element, the extractor leaves both fields empty, while the claimed
fallback chain would fall through to the page-level title element and to
the paragraph concatenation. -/
theorem extractArticle_hint_no_fallthrough :
    (extractArticle soupNoMatch "u" selHinted).title = "" ∧
    (extractArticle soupNoMatch "u" selHinted).content = "" ∧
    titleChainClaim soupNoMatch selHinted = "Page Title" ∧
    contentChainClaim soupNoMatch selHinted = "Funding story body" :=
  ⟨rfl, rfl, rfl, rfl⟩

/-- The generic content-region fallback only ever returns texts longer
than 100 characters. -/
theorem firstGenericContent_gt100 (soup : Soup) (t : String)
    (h : firstGenericContent soup = some t) : t.length > 100 := by
  unfold firstGenericContent at h
  revert h
  generalize genericContentSelectors = l
  induction l with
  | nil => intro h; exact absurd h (by simp [firstGenericContent.go])
  | cons sel rest ih =>
    intro h
    unfold firstGenericContent.go at h
    revert h
    cases hsel : soup.select_one sel with
    | none => intro h; exact ih h
    | some u =>
      simp only []
      by_cases hlen : u.length > 100
      · rw [if_pos hlen]; intro h; cases h; exact hlen
      · rw [if_neg hlen]; intro h; exact ih h

/-- C6 amended: on every page and every hint map, field resolution is
gated on hint presence — a present hint is authoritative for its field
(a hint matching nothing yields the empty string, with no fallthrough),
while an absent hint resolves the title from the page-level title
element (else empty) and the content from the first generic
content-region selector whose text exceeds 100 characters, else the
concatenation of the first 10 paragraph texts.  The generic stage only
ever yields texts longer than 100 characters, and on a hint-free page
where no generic selector matches, the extractor returns the page title
and the paragraph concatenation. -/
theorem extractArticle_resolution (soup : Soup) (url : String) (sel : Selectors) :
    extractArticle soup url sel = extractArticleAmended soup url sel ∧
    (∀ t : String, firstGenericContent soup = some t → t.length > 100) ∧
    extractArticle soupNoMatch "u" {} =
      { url := "u", title := "Page Title", content := "Funding story body", date := "" } :=
  ⟨rfl, fun t hgen => firstGenericContent_gt100 soup t hgen, rfl⟩

/-- Witness for C6 amended on a page whose first generic selector
matches a 101-character text, with the threshold bound discharged
there. -/
theorem extractArticle_resolution_witness :
    (extractArticle soupLong "u" {} = extractArticleAmended soupLong "u" {} ∧
     (∀ t : String, firstGenericContent soupLong = some t → t.length > 100) ∧
     extractArticle soupNoMatch "u" {} =
       { url := "u", title := "Page Title", content := "Funding story body", date := "" }) ∧
    longText.length > 100 :=
  ⟨extractArticle_resolution soupLong "u" {},
   (extractArticle_resolution soupLong "u" {}).2.1 longText rfl⟩

/-- C9 counterexample: eleven parsed result blocks that all pass the
keyword filter produce eleven kept results for the term — the fetcher
applies no cap of 10 (the requested count only parametrises the query
URL). -/
theorem google_search_no_cap :
    (google_search_scraping (FetchResult.resp 200 (List.replicate 11 gBlockStartup))).length = 11 :=
  rfl

/-- C10: a classified mention whose `name` field is present but `null`
raises while being processed: the batch stops there (the later `Beta`
mention is never inserted), and the enclosing pass — driven end-to-end
through the feed fetcher — is recorded with status `error` carrying the
wrapped message; by contrast a mention with a missing or
whitespace-only name is skipped silently and processing continues. -/
theorem null_name_mention_aborts_batch :
    process_found_companies 0 emptyEnrich [mAlpha, mNullName, mBeta] "src" [] =
      ([{ name := "Alpha", source_url := some "src" }],
       some "AttributeError: NoneType object has no attribute strip") ∧
    process_found_companies 0 emptyEnrich [mNoName, mWsName, mBeta] "src" [] =
      ([{ name := "Beta", source_url := some "src" }], none) ∧
    (scrape_news_source ctxNullCompany sourceRss [] []).1.log.status = "error" ∧
    (scrape_news_source ctxNullCompany sourceRss [] []).1.log.error_message =
      some "RSS scraping error: AttributeError: NoneType object has no attribute strip" ∧
    (scrape_news_source ctxNullCompany sourceRss [] []).1.startups = [] :=
  ⟨rfl, rfl, rfl, rfl, rfl⟩

/-! ### Helper lemmas on the deduplicator -/

theorem jsonOptStrField_optJ (o : Option String) :
    jsonOptStrField (some (optJ o)) = Except.ok (o.map Json.str) := by
  cases o <;> rfl

theorem jsonOptStrPlain_optJ (o : Option String) :
    jsonOptStrPlain (some (optJ o)) = Except.ok o := by
  cases o <;> rfl

theorem optTruthy_optJ_map (o : Option String) :
    optTruthy (some (optJ o)) = optTruthy (o.map Json.str) := by
  cases o <;> rfl

theorem jsonStrList_map (l : List String) :
    jsonStrList (Json.arr (l.map Json.str)) = Except.ok l := by
  have : ∀ m : List String, jsonStrList.go (m.map Json.str) = Except.ok m := by
    intro m
    induction m with
    | nil => rfl
    | cons a as ih => simp [List.map, jsonStrList.go, ih]
  simp [jsonStrList, this]

/-- The funding-amount component of a successful merge computation. -/
theorem mergeUpdate_funding_amount (ex : Startup) (cd : Json) (u : UpdateData)
    (hu : mergeUpdate ex cd = Except.ok u) :
    u.funding_amount =
      if optTruthy (jsonGet cd "funding_amount") && !optTruthy ex.funding_amount
      then jsonGet cd "funding_amount" else none := by
  unfold mergeUpdate at hu
  by_cases hA : (optTruthy (jsonGet cd "funding_amount") && !optTruthy ex.funding_amount) = true <;>
    by_cases hB : (optTruthy (jsonGet cd "funding_stage") && !optTruthy ex.funding_stage) = true <;>
    by_cases hC : (jsonTruthy ((jsonGet cd "investors").getD (Json.arr []))) = true <;>
      simp only [hA, hB, hC, if_true, if_false, Bool.false_eq_true, if_neg, if_pos] at hu <;>
      first
        | (cases hu; simp [hA])
        | (revert hu
           cases jsonStrList ((jsonGet cd "investors").getD (Json.arr [])) with
           | ok invs => intro hu; cases hu; simp [hA]
           | error e => intro hu; cases hu)

/-! ### C4, C7, C8 -/

/-- C4: the Acme name-collision scenario produces
`funding_amount = "$2M"` and investors `{X, Y}`; and in general a merge
write never clears a set funding amount (the written value equals the
stored one whenever the stored one is truthy) and fills an empty one
exactly when the mention supplies a truthy value. -/
theorem dedup_merge_scenario_and_monotonic
    (ex : Startup) (cd : Json) (u : UpdateData) (n now : Nat)
    (hu : mergeUpdate ex cd = Except.ok u) :
    processMention now emptyEnrich "src" [acme0] cdAcme =
      Except.ok [{ acme0 with funding_amount := some (Json.str "$2M"), investors := ["X", "Y"], last_updated := now }] ∧
    (applyUpdate n u ex).funding_amount =
      (if optTruthy (jsonGet cd "funding_amount") && !optTruthy ex.funding_amount
       then jsonGet cd "funding_amount" else ex.funding_amount) := by
  constructor
  · rfl
  · have h := mergeUpdate_funding_amount ex cd u hu
    by_cases hA : (optTruthy (jsonGet cd "funding_amount") && !optTruthy ex.funding_amount) = true
    · rw [if_pos hA] at h ⊢
      have hj : ∃ j, jsonGet cd "funding_amount" = some j := by
        cases hval : jsonGet cd "funding_amount" with
        | none => rw [hval] at hA; simp [optTruthy] at hA
        | some j => exact ⟨j, rfl⟩
      rcases hj with ⟨j, hj⟩
      rw [hj] at h ⊢
      simp [applyUpdate, h]
    · rw [if_neg hA] at h ⊢
      simp [applyUpdate, h]

/-- Witness for C4 at the scenario inputs themselves. -/
theorem dedup_merge_scenario_and_monotonic_witness :
    processMention 7 emptyEnrich "src" [acme0] cdAcme =
      Except.ok [{ acme0 with funding_amount := some (Json.str "$2M"), investors := ["X", "Y"], last_updated := 7 }] ∧
    (applyUpdate 3 { funding_amount := some (Json.str "$2M"), investors := some ["X", "Y"] } acme0).funding_amount =
      (if optTruthy (jsonGet cdAcme "funding_amount") && !optTruthy acme0.funding_amount
       then jsonGet cdAcme "funding_amount" else acme0.funding_amount) :=
  dedup_merge_scenario_and_monotonic acme0 cdAcme
    { funding_amount := some (Json.str "$2M"), investors := some ["X", "Y"] } 3 7 rfl

/-- C7 counterexample: a mention that supplies no funding fields and
only an already-stored investor is "no effective change" in the claim's
sense, yet the deduplicator performs a write: the stored record's
last-updated timestamp moves from 0 to 5. -/
theorem merge_noop_still_writes :
    processMention 5 emptyEnrich "s" [acmeFull] cdNoop =
      Except.ok [{ acmeFull with last_updated := 5 }] ∧
    acmeFull.last_updated = 0 ∧
    ({ acmeFull with last_updated := 5 } : Startup).last_updated = 5 :=
  ⟨rfl, rfl, rfl⟩

/-- C7 amended: no write happens exactly when the computed update is
empty — the mention fills no empty funding field and supplies no
non-empty investor list; a supplied non-empty investor list always
produces a write even when every supplied investor is already stored;
and every write refreshes the last-updated timestamp in the same
write. -/
theorem merge_write_characterization
    (ex : Startup) (fs : List (String × Json)) (u : UpdateData) (now : Nat)
    (enrich : String → EnrichResult) (src : String)
    (hu : mergeUpdate ex (Json.obj fs) = Except.ok u)
    (hname : stripName ((jsonGet (Json.obj fs) "name").getD (Json.str "")) = Except.ok ex.name)
    (hne : ex.name ≠ "") (hnow : ex.last_updated ≠ now) :
    (processMention now enrich src [ex] (Json.obj fs) = Except.ok [ex] ↔ u.isEmpty = true) ∧
    (u.isEmpty = false →
      processMention now enrich src [ex] (Json.obj fs) = Except.ok [applyUpdate now u ex] ∧
      (applyUpdate now u ex).last_updated = now ∧ applyUpdate now u ex ≠ ex) := by
  have hfind : findByName [ex] ex.name = some ex := by
    simp [findByName, List.find?]
  have hstep : processMention now enrich src [ex] (Json.obj fs) =
      (match stripName ((jsonGet (Json.obj fs) "name").getD (Json.str "")) with
       | Except.error e => Except.error e
       | Except.ok name =>
         if name = "" then Except.ok [ex]
         else
           match findByName [ex] name with
           | none =>
             match mentionNew now (enrich name) name src (Json.obj fs) with
             | Except.ok r => Except.ok ([ex] ++ [r])
             | Except.error e => Except.error e
           | some existing =>
             match mergeUpdate existing (Json.obj fs) with
             | Except.error e => Except.error e
             | Except.ok u' =>
               if u'.isEmpty then Except.ok [ex]
               else Except.ok (updateFirst [ex] name (applyUpdate now u'))) := rfl
  have hproc : processMention now enrich src [ex] (Json.obj fs) =
      (if u.isEmpty then Except.ok [ex]
       else Except.ok (updateFirst [ex] ex.name (applyUpdate now u))) := by
    rw [hstep, hname]
    dsimp only []
    rw [if_neg hne, hfind]
    dsimp only []
    rw [hu]
  have hupd : updateFirst [ex] ex.name (applyUpdate now u) = [applyUpdate now u ex] := by
    simp [updateFirst]
  have hlast : (applyUpdate now u ex).last_updated = now := rfl
  have hneq : applyUpdate now u ex ≠ ex := by
    intro h
    exact hnow (by rw [← congrArg Startup.last_updated h, hlast])
  constructor
  · rw [hproc]
    by_cases hE : u.isEmpty = true
    · rw [if_pos hE]; simp [hE]
    · rw [if_neg hE, hupd]
      constructor
      · intro h
        injection h with h'
        injection h' with h1 h2
        exact absurd h1 hneq
      · intro h
        exact absurd h hE
  · intro hF
    rw [hproc, if_neg (by simp [hF]), hupd]
    exact ⟨rfl, hlast, hneq⟩

/-- Witness for C7 amended at the no-op scenario (update
`{investors := ["X"]}` is non-empty, so a write occurs). -/
theorem merge_write_characterization_witness :
    (processMention 5 emptyEnrich "s" [acmeFull]
        (Json.obj [("name", Json.str "Acme"), ("funding_amount", optJ none),
                   ("funding_stage", optJ none),
                   ("investors", Json.arr (["X"].map Json.str)),
                   ("industry", optJ none), ("location", optJ none)]) =
      Except.ok [acmeFull] ↔ ({ investors := some ["X"] } : UpdateData).isEmpty = true) ∧
    (({ investors := some ["X"] } : UpdateData).isEmpty = false →
      processMention 5 emptyEnrich "s" [acmeFull]
          (Json.obj [("name", Json.str "Acme"), ("funding_amount", optJ none),
                     ("funding_stage", optJ none),
                     ("investors", Json.arr (["X"].map Json.str)),
                     ("industry", optJ none), ("location", optJ none)]) =
        Except.ok [applyUpdate 5 { investors := some ["X"] } acmeFull] ∧
      (applyUpdate 5 ({ investors := some ["X"] } : UpdateData) acmeFull).last_updated = 5 ∧
      applyUpdate 5 ({ investors := some ["X"] } : UpdateData) acmeFull ≠ acmeFull) :=
  merge_write_characterization acmeFull
    [("name", Json.str "Acme"), ("funding_amount", optJ none),
     ("funding_stage", optJ none), ("investors", Json.arr (["X"].map Json.str)),
     ("industry", optJ none), ("location", optJ none)]
    { investors := some ["X"] } 5 emptyEnrich "s" rfl rfl (by simp [acmeFull]) (by simp [acmeFull])

/-- Reduction of `processMention` on a mention in object form. -/
theorem processMention_obj (now : Nat) (enrich : String → EnrichResult) (src : String)
    (store : List Startup) (fs : List (String × Json)) :
    processMention now enrich src store (Json.obj fs) =
      (match stripName ((jsonGet (Json.obj fs) "name").getD (Json.str "")) with
       | Except.error e => Except.error e
       | Except.ok name =>
         if name = "" then Except.ok store
         else
           match findByName store name with
           | none =>
             match mentionNew now (enrich name) name src (Json.obj fs) with
             | Except.ok r => Except.ok (store ++ [r])
             | Except.error e => Except.error e
           | some existing =>
             match mergeUpdate existing (Json.obj fs) with
             | Except.error e => Except.error e
             | Except.ok u =>
               if u.isEmpty then Except.ok store
               else Except.ok (updateFirst store name (applyUpdate now u))) := rfl

/-- The same reduction, phrased on the string-typed mention harness. -/
theorem processMention_mention (now : Nat) (enrich : String → EnrichResult) (src : String)
    (store : List Startup) (nm : String) (fa fsg ind loc : Option String) (inv : List String) :
    processMention now enrich src store (mentionJson nm fa fsg ind loc inv) =
      (match stripName ((jsonGet (mentionJson nm fa fsg ind loc inv) "name").getD (Json.str "")) with
       | Except.error e => Except.error e
       | Except.ok name =>
         if name = "" then Except.ok store
         else
           match findByName store name with
           | none =>
             match mentionNew now (enrich name) name src (mentionJson nm fa fsg ind loc inv) with
             | Except.ok r => Except.ok (store ++ [r])
             | Except.error e => Except.error e
           | some existing =>
             match mergeUpdate existing (mentionJson nm fa fsg ind loc inv) with
             | Except.error e => Except.error e
             | Except.ok u =>
               if u.isEmpty then Except.ok store
               else Except.ok (updateFirst store name (applyUpdate now u))) := rfl

/-- C8: processing the identical mention (non-empty stripped name) twice
against an initially empty store leaves exactly one persisted record,
whose investor list is duplicate-free and holds exactly the mention's
investors. -/
theorem dedup_idempotent
    (nm : String) (fa fsg ind loc : Option String) (inv : List String)
    (now1 now2 : Nat) (enrich : String → EnrichResult) (src1 src2 : String)
    (hn : pyStrip nm ≠ "") :
    (process_found_companies now1 enrich [mentionJson nm fa fsg ind loc inv] src1 []).2 = none ∧
    ∃ r : Startup,
      process_found_companies now2 enrich [mentionJson nm fa fsg ind loc inv] src2
          (process_found_companies now1 enrich [mentionJson nm fa fsg ind loc inv] src1 []).1 =
        ([r], none) ∧
      r.name = pyStrip nm ∧ r.investors.Nodup ∧ (∀ x, x ∈ r.investors ↔ x ∈ inv) := by
  have hname1 : stripName ((jsonGet (mentionJson nm fa fsg ind loc inv) "name").getD (Json.str ""))
      = Except.ok (pyStrip nm) := rfl
  have hnew : mentionNew now1 (enrich (pyStrip nm)) (pyStrip nm) src1 (mentionJson nm fa fsg ind loc inv)
      = Except.ok
        { name := pyStrip nm, funding_amount := fa.map Json.str, funding_stage := fsg.map Json.str,
          investors := inv, industry := ind, location := loc,
          website := (enrich (pyStrip nm)).website,
          linkedin_profile := (enrich (pyStrip nm)).linkedin_profile,
          facebook_profile := (enrich (pyStrip nm)).facebook_profile,
          founders := (enrich (pyStrip nm)).founders,
          directors := (enrich (pyStrip nm)).directors,
          source_url := some src1, discovered_at := now1, last_updated := now1,
          verification_status := "pending" } := by
    unfold mentionNew
    rw [show jsonGet (mentionJson nm fa fsg ind loc inv) "funding_amount" = some (optJ fa) from rfl,
        show jsonGet (mentionJson nm fa fsg ind loc inv) "funding_stage" = some (optJ fsg) from rfl,
        show (jsonGet (mentionJson nm fa fsg ind loc inv) "investors").getD (Json.arr [])
          = Json.arr (inv.map Json.str) from rfl,
        show jsonGet (mentionJson nm fa fsg ind loc inv) "industry" = some (optJ ind) from rfl,
        show jsonGet (mentionJson nm fa fsg ind loc inv) "location" = some (optJ loc) from rfl,
        jsonOptStrField_optJ, jsonOptStrField_optJ, jsonStrList_map,
        jsonOptStrPlain_optJ, jsonOptStrPlain_optJ]
    rfl
  have hpm1 : processMention now1 enrich src1 [] (mentionJson nm fa fsg ind loc inv)
      = Except.ok
        [{ name := pyStrip nm, funding_amount := fa.map Json.str, funding_stage := fsg.map Json.str,
           investors := inv, industry := ind, location := loc,
           website := (enrich (pyStrip nm)).website,
           linkedin_profile := (enrich (pyStrip nm)).linkedin_profile,
           facebook_profile := (enrich (pyStrip nm)).facebook_profile,
           founders := (enrich (pyStrip nm)).founders,
           directors := (enrich (pyStrip nm)).directors,
           source_url := some src1, discovered_at := now1, last_updated := now1,
           verification_status := "pending" }] := by
    rw [processMention_mention, hname1]
    dsimp only []
    rw [if_neg hn]
    rw [show findByName ([] : List Startup) (pyStrip nm) = none from rfl]
    dsimp only []
    rw [hnew]
    rfl
  have hrun1 : process_found_companies now1 enrich [mentionJson nm fa fsg ind loc inv] src1 []
      = ([{ name := pyStrip nm, funding_amount := fa.map Json.str, funding_stage := fsg.map Json.str,
            investors := inv, industry := ind, location := loc,
            website := (enrich (pyStrip nm)).website,
            linkedin_profile := (enrich (pyStrip nm)).linkedin_profile,
            facebook_profile := (enrich (pyStrip nm)).facebook_profile,
            founders := (enrich (pyStrip nm)).founders,
            directors := (enrich (pyStrip nm)).directors,
            source_url := some src1, discovered_at := now1, last_updated := now1,
            verification_status := "pending" }], none) := by
    unfold process_found_companies
    rw [hpm1]
    rfl
  rw [hrun1]
  set r1 : Startup :=
    { name := pyStrip nm, funding_amount := fa.map Json.str, funding_stage := fsg.map Json.str,
      investors := inv, industry := ind, location := loc,
      website := (enrich (pyStrip nm)).website,
      linkedin_profile := (enrich (pyStrip nm)).linkedin_profile,
      facebook_profile := (enrich (pyStrip nm)).facebook_profile,
      founders := (enrich (pyStrip nm)).founders,
      directors := (enrich (pyStrip nm)).directors,
      source_url := some src1, discovered_at := now1, last_updated := now1,
      verification_status := "pending" } with hr1
  have hr1name : r1.name = pyStrip nm := by rw [hr1]
  have hr1inv : r1.investors = inv := by rw [hr1]
  have hr1fa : r1.funding_amount = fa.map Json.str := by rw [hr1]
  have hr1fs : r1.funding_stage = fsg.map Json.str := by rw [hr1]
  have hfind2 : findByName [r1] (pyStrip nm) = some r1 := by
    simp [findByName, List.find?, hr1name]
  refine ⟨rfl, ?_⟩
  dsimp only []
  by_cases hinv : inv = []
  · subst hinv
    have hmerge : mergeUpdate r1 (mentionJson nm fa fsg ind loc []) = Except.ok {} := by
      unfold mergeUpdate
      dsimp only []
      rw [show jsonGet (mentionJson nm fa fsg ind loc []) "funding_amount" = some (optJ fa) from rfl,
          show jsonGet (mentionJson nm fa fsg ind loc []) "funding_stage" = some (optJ fsg) from rfl,
          show (jsonGet (mentionJson nm fa fsg ind loc []) "investors").getD (Json.arr [])
            = Json.arr (([] : List String).map Json.str) from rfl,
          optTruthy_optJ_map, optTruthy_optJ_map]
      simp [Bool.and_not_self, jsonTruthy]
    have hpm2 : processMention now2 enrich src2 [r1] (mentionJson nm fa fsg ind loc [])
        = Except.ok [r1] := by
      rw [processMention_mention, hname1]
      dsimp only []
      rw [if_neg hn, hfind2]
      dsimp only []
      rw [hmerge]
      rfl
    refine ⟨r1, ?_, hr1name, ?_, ?_⟩
    · unfold process_found_companies
      rw [hpm2]
      rfl
    · rw [hr1inv]; exact List.nodup_nil
    · intro x; rw [hr1inv]
  · obtain ⟨a, as, rfl⟩ : ∃ a as, inv = a :: as := by
      cases inv with
      | nil => exact absurd rfl hinv
      | cons a as => exact ⟨a, as, rfl⟩
    have hmerge : mergeUpdate r1 (mentionJson nm fa fsg ind loc (a :: as))
        = Except.ok { investors := some ((r1.investors ++ (a :: as)).dedup) } := by
      unfold mergeUpdate
      dsimp only []
      rw [show jsonGet (mentionJson nm fa fsg ind loc (a :: as)) "funding_amount" = some (optJ fa) from rfl,
          show jsonGet (mentionJson nm fa fsg ind loc (a :: as)) "funding_stage" = some (optJ fsg) from rfl,
          show (jsonGet (mentionJson nm fa fsg ind loc (a :: as)) "investors").getD (Json.arr [])
            = Json.arr ((a :: as).map Json.str) from rfl,
          optTruthy_optJ_map, optTruthy_optJ_map, jsonStrList_map]
      simp [Bool.and_not_self, jsonTruthy]
    have hpm2 : processMention now2 enrich src2 [r1] (mentionJson nm fa fsg ind loc (a :: as))
        = Except.ok [applyUpdate now2 { investors := some ((r1.investors ++ (a :: as)).dedup) } r1] := by
      rw [processMention_mention, hname1]
      dsimp only []
      rw [if_neg hn, hfind2]
      dsimp only []
      rw [hmerge]
      dsimp only [UpdateData.isEmpty]
      simp [updateFirst, hr1name]
    refine ⟨applyUpdate now2 { investors := some ((r1.investors ++ (a :: as)).dedup) } r1, ?_, ?_, ?_, ?_⟩
    · unfold process_found_companies
      rw [hpm2]
      rfl
    · rw [show (applyUpdate now2 { investors := some ((r1.investors ++ (a :: as)).dedup) } r1).name
          = r1.name from rfl, hr1name]
    · rw [show (applyUpdate now2 { investors := some ((r1.investors ++ (a :: as)).dedup) } r1).investors
          = (r1.investors ++ (a :: as)).dedup from rfl]
      exact List.nodup_dedup _
    · intro x
      rw [show (applyUpdate now2 { investors := some ((r1.investors ++ (a :: as)).dedup) } r1).investors
          = (r1.investors ++ (a :: as)).dedup from rfl, hr1inv]
      simp only [List.mem_dedup, List.mem_append, or_self]

/-- Witness for C8 with a duplicated investor list. -/
theorem dedup_idempotent_witness :
    (process_found_companies 1 emptyEnrich [mentionJson "Acme" (some "$2M") none none none ["X", "X"]] "u1" []).2 = none ∧
    ∃ r : Startup,
      process_found_companies 2 emptyEnrich [mentionJson "Acme" (some "$2M") none none none ["X", "X"]] "u2"
          (process_found_companies 1 emptyEnrich [mentionJson "Acme" (some "$2M") none none none ["X", "X"]] "u1" []).1 =
        ([r], none) ∧
      r.name = pyStrip "Acme" ∧ r.investors.Nodup ∧ (∀ x, x ∈ r.investors ↔ x ∈ ["X", "X"]) :=
  dedup_idempotent "Acme" (some "$2M") none none none ["X", "X"] 1 2 emptyEnrich "u1" "u2"
    (by simp [pyStrip, isWsChar])

/-! ### Helper lemmas for the search pass -/

theorem searchResultStep_searchFetch_irrel (ctx : Ctx)
    (f : String → FetchResult (List GBlock)) (st : PassState) (total : Nat) (r : GResult) :
    searchResultStep { ctx with searchFetch := f } st total r = searchResultStep ctx st total r := rfl

theorem searchResultsLoop_searchFetch_irrel (ctx : Ctx)
    (f : String → FetchResult (List GBlock)) :
    ∀ (rs : List GResult) (st : PassState) (total : Nat),
      searchResultsLoop { ctx with searchFetch := f } rs st total =
        searchResultsLoop ctx rs st total := by
  intro rs
  induction rs with
  | nil => intro st total; rfl
  | cons r rest ih =>
    intro st total
    unfold searchResultsLoop
    rw [searchResultStep_searchFetch_irrel]
    rcases hstep : searchResultStep ctx st total r with ⟨⟨st', total'⟩, err⟩
    cases err with
    | none => exact ih st' total'
    | some e => rfl

theorem searchTermsLoop_agree (ctx : Ctx) (f : String → FetchResult (List GBlock)) :
    ∀ (terms : List String) (st : PassState) (total : Nat),
      (∀ t ∈ terms, f t = ctx.searchFetch t) →
      searchTermsLoop { ctx with searchFetch := f } terms st total =
        searchTermsLoop ctx terms st total := by
  intro terms
  induction terms with
  | nil => intro st total _; rfl
  | cons term rest ih =>
    intro st total hagree
    unfold searchTermsLoop
    dsimp only []
    rw [hagree term (List.mem_cons_self term rest)]
    rw [searchResultsLoop_searchFetch_irrel]
    have key : ∀ res : (PassState × Nat) × Option String,
        (match res with
         | ((st', total'), none) => searchTermsLoop { ctx with searchFetch := f } rest st' total'
         | ((st', total'), some e) => ((st', total'), some e)) =
        (match res with
         | ((st', total'), none) => searchTermsLoop ctx rest st' total'
         | ((st', total'), some e) => ((st', total'), some e)) := by
      intro res
      rcases res with ⟨⟨st', total'⟩, _ | e⟩
      · exact ih st' total' (fun t ht => hagree t (List.mem_cons_of_mem term ht))
      · rfl
    exact key _

theorem googleResultStep_mem (acc : List GResult) (b : GBlock) (r : GResult)
    (hr : r ∈ googleResultStep acc b) :
    r ∈ acc ∨ keywordHit (pyLower r.title ++ pyLower r.snippet) searchKeywords = true := by
  unfold googleResultStep at hr
  rcases b with ⟨tE, hE, sE⟩
  cases tE with
  | none => exact Or.inl hr
  | some t =>
    cases hE with
    | none => exact Or.inl hr
    | some href =>
      dsimp only [] at hr
      by_cases hk : keywordHit (pyLower t ++ pyLower (sE.getD "")) searchKeywords = true
      · rw [if_pos hk] at hr
        rcases List.mem_append.mp hr with h | h
        · exact Or.inl h
        · rw [List.mem_singleton.mp h]
          exact Or.inr hk
      · rw [if_neg hk] at hr
        exact Or.inl hr

theorem google_search_foldl_mem (blocks : List GBlock) :
    ∀ (acc : List GResult) (r : GResult), r ∈ blocks.foldl googleResultStep acc →
      r ∈ acc ∨ keywordHit (pyLower r.title ++ pyLower r.snippet) searchKeywords = true := by
  induction blocks with
  | nil => intro acc r hr; exact Or.inl hr
  | cons b bs ih =>
    intro acc r hr
    rcases ih (googleResultStep acc b) r hr with h | h
    · exact googleResultStep_mem acc b r h
    · exact Or.inr h

/-- C9 amended: only the first 3 of the fixed query terms are consulted
(the pass result only depends on the search collaborator's responses to
those three terms), and every kept result's lowercased title+snippet
text contains a keyword of the fixed set — but the number of kept
results per term is not capped in the code (the requested count is only
a query-URL parameter). -/
theorem scrape_google_search_terms_and_filter (ctx : Ctx)
    (f : String → FetchResult (List GBlock)) (st : PassState)
    (hagree : ∀ t ∈ GOOGLE_SEARCH_TERMS.take 3, f t = ctx.searchFetch t) :
    scrape_google_search { ctx with searchFetch := f } st = scrape_google_search ctx st ∧
    (∀ (fetch : FetchResult (List GBlock)) (r : GResult),
        r ∈ google_search_scraping fetch →
        keywordHit (pyLower r.title ++ pyLower r.snippet) searchKeywords = true) ∧
    GOOGLE_SEARCH_TERMS.take 3 =
      ["Indian startup funding 2025", "Series A funding India startup",
       "venture capital investment India"] := by
  refine ⟨?_, ?_, rfl⟩
  · unfold scrape_google_search
    rw [searchTermsLoop_agree ctx f (GOOGLE_SEARCH_TERMS.take 3) st 0 hagree]
  · intro fetch r hr
    unfold google_search_scraping at hr
    cases fetch with
    | raiseErr msg => exact absurd hr (List.not_mem_nil r)
    | resp status blocks =>
      dsimp only [] at hr
      by_cases hs : status = 200
      · rw [if_pos hs] at hr
        rcases google_search_foldl_mem blocks [] r hr with h | h
        · exact absurd h (List.not_mem_nil r)
        · exact h
      · rw [if_neg hs] at hr
        exact absurd hr (List.not_mem_nil r)

/-- Witness for C9 amended at a collaborator bundle agreeing with
itself on the three terms. -/
theorem scrape_google_search_terms_and_filter_witness :
    scrape_google_search { ctxAllTimeout with searchFetch := ctxAllTimeout.searchFetch }
        { log := initLog "s1" "Search", startups := [] } =
      scrape_google_search ctxAllTimeout { log := initLog "s1" "Search", startups := [] } ∧
    (∀ (fetch : FetchResult (List GBlock)) (r : GResult),
        r ∈ google_search_scraping fetch →
        keywordHit (pyLower r.title ++ pyLower r.snippet) searchKeywords = true) ∧
    GOOGLE_SEARCH_TERMS.take 3 =
      ["Indian startup funding 2025", "Series A funding India startup",
       "venture capital investment India"] :=
  scrape_google_search_terms_and_filter ctxAllTimeout ctxAllTimeout.searchFetch
    { log := initLog "s1" "Search", startups := [] } (fun _ _ => rfl)

end Scrapper
